import Mathlib

/-!
Verification development for the KOReader reading-statistics app
(`utils/utilities.py`, `utils/summary.py`).  The database rows and the
two mutation utilities, plus the pure data pipelines behind the summary
charts, are shallowly embedded as Lean functions; the theorems settle the
behavioural claims about them.
-/

namespace ReadingStats

/-- Row of the `book` table: `book(id, title, pages, total_read_time,
total_read_pages)`.  The three numeric payload columns are nullable in the
schema, hence `Option Int`. -/
structure Book where
  id : Int
  title : String
  pages : Option Int
  total_read_time : Option Int
  total_read_pages : Option Int
deriving DecidableEq, Repr

/-- Row of the `page_stat_data` table:
`page_stat_data(id_book, page, start_time, duration, total_pages)`. -/
structure PageStat where
  id_book : Int
  page : Int
  start_time : Int
  duration : Int
  total_pages : Int
deriving DecidableEq, Repr

/-- The database state visible to the app: the two tables used by every
query, as ordered row lists. -/
structure DB where
  books : List Book
  psd : List PageStat
deriving DecidableEq, Repr

/-- SQL `COALESCE(x, 0)`. -/
def coalesce0 : Option Int → Int
  | none => 0
  | some x => x

/-! ### `merge_books` (utils/utilities.py)

`merge_books(file_path, source_id, target_id)` executes, in order:
1. `UPDATE page_stat_data SET id_book = target WHERE id_book = source`;
2. `UPDATE book SET total_read_time = COALESCE(total_read_time,0) +
   (SELECT COALESCE(total_read_time,0) FROM book WHERE id = source), ...
   WHERE id = target` (the scalar subquery reads the pre-update table;
   if no source row exists it yields SQL NULL, which propagates);
3. `DELETE FROM book WHERE id = source`;
and returns a success message string. -/

/-- Step 1 of `merge_books`: repoint reading-session rows. -/
def repointPsd (psd : List PageStat) (src tgt : Int) : List PageStat :=
  psd.map (fun r => if r.id_book = src then { r with id_book := tgt } else r)

/-- The SET clause of step 2 of `merge_books`, applied to one `book` row:
rows other than the target are untouched; the target row receives
`COALESCE(own, 0) + COALESCE(source-subquery, 0)`, NULL when the subquery
returns no row. -/
def mergeRow (srcRow : Option Book) (tgt : Int) (b : Book) : Book :=
  if b.id = tgt then
    { b with
      total_read_time :=
        match srcRow with
        | some s => some (coalesce0 b.total_read_time + coalesce0 s.total_read_time)
        | none => none
      total_read_pages :=
        match srcRow with
        | some s => some (coalesce0 b.total_read_pages + coalesce0 s.total_read_pages)
        | none => none }
  else b

/-- Step 2 of `merge_books`: fold the source book's cumulative counters
into the target row.  The scalar subquery is the first `book` row whose id
is `src`, read from the pre-update table state. -/
def mergeCounters (books : List Book) (src tgt : Int) : List Book :=
  books.map (mergeRow (books.find? (fun b => b.id = src)) tgt)

/-- Function `merge_books`: repoint, combine counters, delete the source row,
return the success message. -/
def mergeBooks (db : DB) (src tgt : Int) : DB × String :=
  let psd2 := repointPsd db.psd src tgt
  let books2 := mergeCounters db.books src tgt
  let books3 := books2.filter (fun b => b.id ≠ src)
  (⟨books3, psd2⟩, s!"Successfully merged book ID {src} into book ID {tgt}.")

/-! ### Generic list lemmas used by the merge proofs -/

theorem find?_filter_of_find? {α : Type} {p q : α → Bool} {l : List α} {a : α}
    (h : l.find? p = some a) (hq : q a = true) : (l.filter q).find? p = some a := by
  induction l with
  | nil => simp [List.find?] at h
  | cons b t ih =>
    rw [List.filter_cons]
    by_cases hpb : p b
    · rw [List.find?_cons_of_pos _ hpb] at h
      obtain rfl : b = a := by injection h
      rw [if_pos hq]
      exact List.find?_cons_of_pos _ hpb
    · rw [List.find?_cons_of_neg _ (by simpa using hpb)] at h
      by_cases hqb : q b = true
      · rw [if_pos hqb, List.find?_cons_of_neg _ (by simpa using hpb)]
        exact ih h
      · rw [if_neg hqb]
        exact ih h

theorem find?_map_of_id_preserving {l : List Book} {f : Book → Book} {i : Int}
    (hf : ∀ b, (f b).id = b.id) :
    (l.map f).find? (fun b => b.id = i) = (l.find? (fun b => b.id = i)).map f := by
  induction l with
  | nil => simp
  | cons b t ih =>
    by_cases hb : b.id = i
    · rw [List.map_cons, List.find?_cons_of_pos _ (by simp [hf, hb]),
        List.find?_cons_of_pos _ (by simp [hb])]
      rfl
    · rw [List.map_cons, List.find?_cons_of_neg _ (by simp [hf, hb]),
        List.find?_cons_of_neg _ (by simp [hb])]
      exact ih

/-- In a book list with pairwise-distinct ids, `find?` on a member's id
returns exactly that member. -/
theorem find?_of_nodup_ids {l : List Book} {s : Book} {i : Int}
    (hnd : (l.map Book.id).Nodup) (hmem : s ∈ l) (hid : s.id = i) :
    l.find? (fun b => b.id = i) = some s := by
  induction l with
  | nil => cases hmem
  | cons b t ih =>
    rw [List.map_cons, List.nodup_cons] at hnd
    rcases List.mem_cons.1 hmem with rfl | hmem'
    · exact List.find?_cons_of_pos _ (by simp [hid])
    · by_cases hb : b.id = i
      · exfalso
        apply hnd.1
        rw [hb, ← hid]
        exact List.mem_map.2 ⟨s, hmem', rfl⟩
      · rw [List.find?_cons_of_neg _ (by simp [hb])]
        exact ih hnd.2 hmem'

theorem mergeRow_id (srcRow : Option Book) (tgt : Int) (b : Book) :
    (mergeRow srcRow tgt b).id = b.id := by
  unfold mergeRow
  split <;> rfl

/-- C1: after `merge_books(source, target)` on a database whose book ids are
pairwise distinct and which contains two distinct books `s` (id `src`) and
`t` (id `tgt`) with non-NULL counters: a query for the source id finds no
book row; every `page_stat_data` row keeps its position, rows that
referenced the source now reference the target and no row references the
source any more; and the target row's cumulative counters are the sums of
the two books' pre-merge counters. -/
theorem merge_books_spec (db : DB) (s t : Book) (src tgt st sp tt tp : Int)
    (hnd : (db.books.map Book.id).Nodup) (hs : s ∈ db.books) (ht : t ∈ db.books)
    (hsid : s.id = src) (htid : t.id = tgt) (hne : src ≠ tgt)
    (h1 : s.total_read_time = some st) (h2 : s.total_read_pages = some sp)
    (h3 : t.total_read_time = some tt) (h4 : t.total_read_pages = some tp) :
    (mergeBooks db src tgt).1.books.find? (fun b => b.id = src) = none
    ∧ (mergeBooks db src tgt).1.psd
        = db.psd.map (fun r => if r.id_book = src then { r with id_book := tgt } else r)
    ∧ (mergeBooks db src tgt).1.psd.filter (fun r => r.id_book = src) = []
    ∧ (∀ r ∈ db.psd, r.id_book = src →
        { r with id_book := tgt } ∈ (mergeBooks db src tgt).1.psd)
    ∧ (mergeBooks db src tgt).1.psd.length = db.psd.length
    ∧ (mergeBooks db src tgt).1.books.find? (fun b => b.id = tgt)
        = some { t with total_read_time := some (tt + st),
                        total_read_pages := some (tp + sp) } := by
  have hfind : db.books.find? (fun b => b.id = src) = some s :=
    find?_of_nodup_ids hnd hs hsid
  refine ⟨?_, rfl, ?_, ?_, ?_, ?_⟩
  · rw [List.find?_eq_none]
    intro b hb
    simp only [mergeBooks, List.mem_filter] at hb
    simpa using hb.2
  · rw [List.filter_eq_nil_iff]
    intro r hr
    simp only [mergeBooks, repointPsd, List.mem_map] at hr
    obtain ⟨r0, _, rfl⟩ := hr
    by_cases h : r0.id_book = src
    · simp only [h, if_pos rfl]
      simp
      omega
    · simp [h]
  · intro r hr hrs
    simp only [mergeBooks, repointPsd]
    refine List.mem_map.2 ⟨r, hr, ?_⟩
    simp [hrs]
  · simp [mergeBooks, repointPsd]
  · have hmt : mergeRow (some s) tgt t
        = { t with total_read_time := some (tt + st), total_read_pages := some (tp + sp) } := by
      simp [mergeRow, htid, h1, h2, h3, h4, coalesce0]
    have hfind2 : (mergeCounters db.books src tgt).find? (fun b => b.id = tgt)
        = some (mergeRow (some s) tgt t) := by
      unfold mergeCounters
      rw [hfind, find?_map_of_id_preserving (mergeRow_id (some s) tgt),
        find?_of_nodup_ids hnd ht htid, Option.map_some']
    show ((mergeCounters db.books src tgt).filter
        (fun b => b.id ≠ src)).find? (fun b => b.id = tgt) = _
    rw [find?_filter_of_find? hfind2 (by simp [mergeRow_id, htid]; omega), hmt]

/-- Witness for C1 on a concrete two-book database. -/
theorem merge_books_spec_witness :
    (mergeBooks ⟨[⟨1, "A", some 100, some 30, some 5⟩, ⟨2, "B", some 100, some 40, some 7⟩],
        [⟨1, 3, 0, 60, 100⟩, ⟨2, 4, 0, 60, 100⟩]⟩ 1 2).1.books.find? (fun b => b.id = 1) = none
    ∧ (mergeBooks ⟨[⟨1, "A", some 100, some 30, some 5⟩, ⟨2, "B", some 100, some 40, some 7⟩],
        [⟨1, 3, 0, 60, 100⟩, ⟨2, 4, 0, 60, 100⟩]⟩ 1 2).1.books.find? (fun b => b.id = 2)
        = some ⟨2, "B", some 100, some (40 + 30), some (7 + 5)⟩ := by
  have h := merge_books_spec
    ⟨[⟨1, "A", some 100, some 30, some 5⟩, ⟨2, "B", some 100, some 40, some 7⟩],
      [⟨1, 3, 0, 60, 100⟩, ⟨2, 4, 0, 60, 100⟩]⟩
    ⟨1, "A", some 100, some 30, some 5⟩ ⟨2, "B", some 100, some 40, some 7⟩
    1 2 30 5 40 7 (by decide) (by decide) (by decide) rfl rfl (by decide) rfl rfl rfl rfl
  exact ⟨h.1, h.2.2.2.2.2⟩

/-- C9: `merge_books(b, b)` performs no source-equals-target validation:
on a database with pairwise-distinct book ids containing a book `b` with
id `bid` and non-NULL counters, the counter-update step first sets both of
the row's cumulative counters to double their pre-call values, the delete
step then removes the row entirely, and the call returns the ordinary
success message. -/
theorem merge_books_self (db : DB) (b : Book) (bid x y : Int)
    (hnd : (db.books.map Book.id).Nodup) (hb : b ∈ db.books) (hid : b.id = bid)
    (h1 : b.total_read_time = some x) (h2 : b.total_read_pages = some y) :
    (mergeCounters db.books bid bid).find? (fun c => c.id = bid)
      = some { b with total_read_time := some (2 * x), total_read_pages := some (2 * y) }
    ∧ (mergeBooks db bid bid).1.books.find? (fun c => c.id = bid) = none
    ∧ (mergeBooks db bid bid).2
      = s!"Successfully merged book ID {bid} into book ID {bid}." := by
  have hfind : db.books.find? (fun c => c.id = bid) = some b :=
    find?_of_nodup_ids hnd hb hid
  refine ⟨?_, ?_, rfl⟩
  · have hmb : mergeRow (some b) bid b
        = { b with total_read_time := some (2 * x), total_read_pages := some (2 * y) } := by
      simp [mergeRow, hid, h1, h2, coalesce0]
      constructor <;> ring
    unfold mergeCounters
    rw [hfind, find?_map_of_id_preserving (mergeRow_id (some b) bid),
      find?_of_nodup_ids hnd hb hid, Option.map_some', hmb]
  · rw [List.find?_eq_none]
    intro c hc
    simp only [mergeBooks, List.mem_filter] at hc
    simpa using hc.2

/-- Witness for C9 on a concrete one-book database. -/
theorem merge_books_self_witness :
    (mergeCounters [Book.mk 7 "Dup" (some 50) (some 30) (some 5)] 7 7).find? (fun c => c.id = 7)
      = some ⟨7, "Dup", some 50, some 60, some 10⟩
    ∧ (mergeBooks ⟨[⟨7, "Dup", some 50, some 30, some 5⟩], []⟩ 7 7).1.books.find?
        (fun c => c.id = 7) = none
    ∧ (mergeBooks ⟨[⟨7, "Dup", some 50, some 30, some 5⟩], []⟩ 7 7).2
      = "Successfully merged book ID 7 into book ID 7." := by
  have h := merge_books_self ⟨[⟨7, "Dup", some 50, some 30, some 5⟩], []⟩
    ⟨7, "Dup", some 50, some 30, some 5⟩ 7 30 5 (by decide) (by decide) rfl rfl rfl
  refine ⟨h.1, h.2.1, ?_⟩
  rw [h.2.2]
  rfl

/-! ### `create_reading_entries` (utils/utilities.py)

The generator fetches the book's page count, rejects a missing book, a
falsy (`NULL` or `0`) page count and an unparsable `MM/DD/YYYY` start
date, then for each simulated day appends up to
`int(pages_per_minute * minutes_per_day)` one-page session rows, stopping
once `current_page` passes the page count, and finally inserts the batch.
-/

/-- Truncating division of the exact rational `n / d` towards zero, for a
positive denominator `d`: the value of Python's `int()` on that quotient. -/
def truncDiv (n : Int) (d : Nat) : Int :=
  if 0 ≤ n then n.fdiv d else -((-n).fdiv d)

/-- Value `int(pages_per_minute * minutes_per_day)`: the product
`r * m` is exactly `(r.num * m) / r.den`, truncated towards zero.
(Computed on the numerator and denominator so the kernel can evaluate it;
`pagesToRead_eq_floor` relates it to `⌊r * m⌋`.) -/
def pagesToRead (r : ℚ) (m : Nat) : Int :=
  truncDiv (r.num * m) r.den

/-- Python's float floor division `page // pages_per_minute` on the exact
rational: `⌊pageIdx · r.den / r.num⌋`, computed with `Int.fdiv` (which
floors for either sign of `r.num`). -/
def pageMinuteOffset (pageIdx : Nat) (r : ℚ) : Int :=
  ((pageIdx : Int) * (r.den : Int)).fdiv r.num

/-- For a nonnegative rate the truncation in `pagesToRead` is the floor of
the exact product, as the `int()` call in the source computes. -/
theorem pagesToRead_eq_floor (r : ℚ) (m : Nat) (hr : 0 ≤ r) :
    pagesToRead r m = ⌊r * (m : ℚ)⌋ := by
  have hnum : 0 ≤ r.num := Rat.num_nonneg.2 hr
  have hden : (0 : ℚ) < (r.den : ℚ) := by
    exact_mod_cast Nat.pos_of_ne_zero r.den_nz
  have key : r * (m : ℚ) = ((r.num * (m : ℤ) : ℤ) : ℚ) / ((r.den : ℕ) : ℚ) := by
    conv_lhs => rw [← Rat.num_div_den r]
    push_cast
    rw [div_mul_eq_mul_div]
  rw [pagesToRead, truncDiv, if_pos (by positivity), key,
    Rat.floor_intCast_div_natCast, Int.fdiv_eq_ediv _ (by positivity)]

/-- Split a character list on `'/'`, as `"%m/%d/%Y"` tokenising does. -/
def splitSlash : List Char → List (List Char)
  | [] => [[]]
  | c :: rest =>
    if c = '/' then [] :: splitSlash rest
    else
      match splitSlash rest with
      | [] => [[c]]
      | g :: gs => (c :: g) :: gs

/-- Parse a nonempty all-digit field of length at most `maxLen`. -/
def parseDigits (maxLen : Nat) (cs : List Char) : Option Nat :=
  if cs ≠ [] ∧ cs.length ≤ maxLen ∧ cs.all Char.isDigit then
    some (cs.foldl (fun acc c => 10 * acc + (c.toNat - 48)) 0)
  else none

/-- Gregorian leap-year rule, as `datetime`'s calendar uses. -/
def isLeap (y : Nat) : Bool :=
  y % 4 = 0 && (y % 100 ≠ 0 || y % 400 = 0)

/-- Days in a month of the proleptic Gregorian calendar. -/
def daysInMonth (m y : Nat) : Nat :=
  if m = 2 then (if isLeap y then 29 else 28)
  else if m = 4 ∨ m = 6 ∨ m = 9 ∨ m = 11 then 30
  else 31

/-- Parsing as `datetime.strptime(s, "%m/%d/%Y")` does: month and day fields of one or two
digits, a year field of exactly four digits, and the resulting
month/day/year triple valid for `datetime` (month 1–12, day within the
month, year at least 1). -/
def parseDateMDY (s : String) : Option (Nat × Nat × Nat) :=
  match splitSlash s.toList with
  | [a, b, c] =>
    match parseDigits 2 a, parseDigits 2 b, parseDigits 4 c with
    | some m, some d, some y =>
      if 1 ≤ m ∧ m ≤ 12 ∧ 1 ≤ d ∧ d ≤ daysInMonth m y ∧ 1 ≤ y ∧ c.length = 4 then
        some (m, d, y)
      else none
    | _, _, _ => none
  | _ => none

/-- Python's `if not total_pages:` guard on the fetched page count: `NULL`
and `0` are falsy. -/
def truthyPages : Option Int → Option Int
  | none => none
  | some p => if p = 0 then none else some p

/-- One synthesized `page_stat_data` row.  `base` is the epoch timestamp
of the `US/Eastern`-localized parsed start date; the row's time is
`base + day·86400 s + 19 h 30 min + 60 s · (pageIdx // pages_per_minute)`
and its duration is the fixed 60-second `session_duration`. -/
def mkSession (base : Int) (bid totalPages : Int) (r : ℚ) (dayIdx pageIdx : Nat)
    (cp : Int) : PageStat :=
  { id_book := bid
    page := cp
    start_time := base + 86400 * dayIdx + 70200 + 60 * pageMinuteOffset pageIdx r
    duration := 60
    total_pages := totalPages }

/-- The inner `for page in range(pages_to_read)` loop: increment
`current_page`, break (dropping the increment's row) once it passes
`total`, otherwise append a row.  Returns the appended rows and the final
`current_page`. -/
def innerLoop (mk : Nat → Int → PageStat) (total : Int) :
    Nat → Nat → Int → List PageStat × Int
  | 0, _, cp => ([], cp)
  | n + 1, pidx, cp =>
    let cp1 := cp + 1
    if cp1 > total then ([], cp1)
    else
      let rest := innerLoop mk total n (pidx + 1) cp1
      (mk pidx cp1 :: rest.1, rest.2)

/-- The outer `for day in range(days)` loop: run one day's inner loop and
stop after any day that reaches the page count. -/
def outerLoop (mk : Nat → Nat → Int → PageStat) (total : Int) (q : Nat) :
    Nat → Nat → Int → List PageStat × Int
  | 0, _, cp => ([], cp)
  | d + 1, dayIdx, cp =>
    let res := innerLoop (mk dayIdx) total q 0 cp
    if res.2 ≥ total then res
    else
      let rest := outerLoop mk total q d (dayIdx + 1) res.2
      (res.1 ++ rest.1, rest.2)

/-- The distinct outcomes `create_reading_entries` can return; each
constructor carries the data interpolated into the returned message. -/
inductive EntryResult where
  | notFound (bookId : Int)
  | noPageCount (bookId : Int)
  | invalidDate
  | inserted (bookId : Int) (n : Nat) (lastPage : Int)
  | noEntries (bookId : Int)
deriving DecidableEq, Repr

/-- The message string returned for each outcome, as in the source. -/
def renderResult : EntryResult → String
  | .notFound bid => s!"Book with ID {bid} not found."
  | .noPageCount bid => s!"Book with ID {bid} has no page count specified."
  | .invalidDate => "Invalid date format. Please use MM/DD/YYYY."
  | .inserted bid n lastPage =>
    s!"Inserted {n} entries for Book ID: {bid}. Last Page Processed: {lastPage}"
  | .noEntries bid => s!"No entries created for Book ID: {bid}. Already at the last page."

/-- Function `create_reading_entries`: look up the book, validate its page count and
the start date, run the generation loops from `current_page = 0`, and
insert the batch when nonempty.  `locEpoch m d y` abstracts
`est.localize(datetime.strptime(...)).timestamp()`, the epoch second of
the parsed date's midnight in `US/Eastern`. -/
def createReadingEntries (locEpoch : Nat → Nat → Nat → Int) (db : DB) (bookId : Int)
    (startDate : String) (days minutesPerDay : Nat) (pagesPerMinute : ℚ) :
    DB × EntryResult :=
  match db.books.find? (fun b => b.id = bookId) with
  | none => (db, .notFound bookId)
  | some book =>
    match truthyPages book.pages with
    | none => (db, .noPageCount bookId)
    | some totalPages =>
      match parseDateMDY startDate with
      | none => (db, .invalidDate)
      | some (m, d, y) =>
        let base := locEpoch m d y
        let q := (pagesToRead pagesPerMinute minutesPerDay).toNat
        let res := outerLoop (mkSession base bookId totalPages pagesPerMinute)
          totalPages q days 0 0
        if res.1 ≠ [] then
          ({ db with psd := db.psd ++ res.1 }, .inserted bookId res.1.length res.2)
        else (db, .noEntries bookId)

/-! ### Loop invariants of the generator -/

theorem innerLoop_spec (mk : Nat → Int → PageStat) (total : Int) :
    ∀ (n pidx : Nat) (cp : Int), cp ≤ total →
      (innerLoop mk total n pidx cp).1
        = (List.range (min n (total - cp).toNat)).map (fun j => mk (pidx + j) (cp + 1 + j))
      ∧ (innerLoop mk total n pidx cp).2
        = if (n : Int) ≤ total - cp then cp + n else total + 1 := by
  intro n
  induction n with
  | zero =>
    intro pidx cp hcp
    constructor
    · simp [innerLoop]
    · simp only [innerLoop]
      rw [if_pos (by omega)]
      simp
  | succ n ih =>
    intro pidx cp hcp
    show ((if cp + 1 > total then ([], cp + 1)
        else
          let rest := innerLoop mk total n (pidx + 1) (cp + 1)
          (mk pidx (cp + 1) :: rest.1, rest.2)).1 = _
      ∧ (if cp + 1 > total then ([], cp + 1)
        else
          let rest := innerLoop mk total n (pidx + 1) (cp + 1)
          (mk pidx (cp + 1) :: rest.1, rest.2)).2 = _)
    by_cases hover : cp + 1 > total
    · rw [if_pos hover]
      have h0 : (total - cp).toNat = 0 := by omega
      constructor
      · simp [h0]
      · have : ¬ ((n + 1 : Nat) : Int) ≤ total - cp := by push_cast; omega
        simp only [this, if_neg, if_false]
        omega
    · rw [if_neg hover]
      obtain ⟨ih1, ih2⟩ := ih (pidx + 1) (cp + 1) (by omega)
      have hk : (total - cp).toNat = (total - (cp + 1)).toNat + 1 := by omega
      constructor
      · simp only [ih1, hk, Nat.succ_min_succ, List.range_succ_eq_map, List.map_cons,
          List.map_map]
        refine congrArg₂ List.cons (by simp) ?_
        refine List.map_congr_left fun j _ => ?_
        have h1 : pidx + 1 + j = pidx + Nat.succ j := by omega
        have h2 : cp + 1 + 1 + (j : Int) = cp + 1 + ((Nat.succ j : Nat) : Int) := by
          push_cast; ring
        simp only [Function.comp_apply]
        rw [h1, h2]
      · simp only [ih2]
        split_ifs with h1 h2 h2 <;> push_cast at * <;> omega

theorem outerLoop_spec (mk : Nat → Nat → Int → PageStat) (total : Int) (q : Nat)
    (hmk : ∀ a b c, (mk a b c).page = c) :
    ∀ (d dayIdx : Nat) (cp : Int), cp < total →
      (outerLoop mk total q d dayIdx cp).1.map (fun e => e.page)
        = (List.range (min (d * q) (total - cp).toNat)).map
            (fun j : Nat => cp + 1 + (j : Int))
      ∧ (((d * q : Nat) : Int) ≤ total - cp →
          (outerLoop mk total q d dayIdx cp).2 = cp + ((d * q : Nat) : Int)) := by
  intro d
  induction d with
  | zero =>
    intro dayIdx cp hcp
    constructor
    · simp [outerLoop]
    · intro h
      simp [outerLoop]
  | succ d ih =>
    intro dayIdx cp hcp
    obtain ⟨e1, e2⟩ := innerLoop_spec (mk dayIdx) total q 0 cp (le_of_lt hcp)
    show ((if (innerLoop (mk dayIdx) total q 0 cp).2 ≥ total
          then innerLoop (mk dayIdx) total q 0 cp
          else
            let rest := outerLoop mk total q d (dayIdx + 1)
              (innerLoop (mk dayIdx) total q 0 cp).2
            ((innerLoop (mk dayIdx) total q 0 cp).1 ++ rest.1, rest.2)).1.map
            (fun e => e.page) = _
      ∧ (_ → (if (innerLoop (mk dayIdx) total q 0 cp).2 ≥ total
          then innerLoop (mk dayIdx) total q 0 cp
          else
            let rest := outerLoop mk total q d (dayIdx + 1)
              (innerLoop (mk dayIdx) total q 0 cp).2
            ((innerLoop (mk dayIdx) total q 0 cp).1 ++ rest.1, rest.2)).2 = _))
    by_cases hbr : (innerLoop (mk dayIdx) total q 0 cp).2 ≥ total
    · rw [if_pos hbr]
      rw [e2] at hbr
      have hq : ¬ ((q : Int) ≤ total - cp) ∨ (q : Int) = total - cp := by
        by_cases hc : (q : Int) ≤ total - cp
        · rw [if_pos hc] at hbr; right; omega
        · left; exact hc
      have hm : min q (total - cp).toNat = min ((d + 1) * q) (total - cp).toNat := by
        rcases hq with h | h
        · have : (total - cp).toNat < q := by omega
          have : (total - cp).toNat ≤ (d + 1) * q := by nlinarith
          omega
        · have hqT : q = (total - cp).toNat := by omega
          have : q ≤ (d + 1) * q := by nlinarith
          omega
      constructor
      · rw [e1, List.map_map, ← hm]
        refine List.map_congr_left fun j _ => ?_
        simp [hmk]
      · intro hcond
        have hqle : (q : Int) ≤ ((d + 1) * q : Nat) := by push_cast; nlinarith
        have hc : (q : Int) ≤ total - cp := le_trans hqle hcond
        rw [e2, if_pos hc]
        rw [if_pos hc] at hbr
        have heq : ((d + 1) * q : Nat) = q := by
          have h1 : (q : Int) ≥ total - cp := by omega
          have h2 : (((d + 1) * q : Nat) : Int) ≤ (q : Int) := le_trans hcond h1
          have h3 : q ≤ (d + 1) * q := Nat.le_mul_of_pos_left q (Nat.succ_pos d)
          have h4 : (d + 1) * q ≤ q := by exact_mod_cast h2
          omega
        rw [heq]
    · rw [if_neg hbr]
      rw [e2] at hbr
      have hc : (q : Int) ≤ total - cp := by
        by_contra hc
        rw [if_neg hc] at hbr
        omega
      rw [if_pos hc] at hbr
      rw [e2, if_pos hc]
      have hcp2 : cp + (q : Int) < total := by omega
      obtain ⟨ih1, ih2⟩ := ih (dayIdx + 1) (cp + (q : Int)) hcp2
      constructor
      · rw [List.map_append, ih1, e1, List.map_map]
        have hqT : q ≤ (total - cp).toNat := by omega
        have hm1 : min q (total - cp).toNat = q := by omega
        have hm2 : (total - (cp + (q : Int))).toNat = (total - cp).toNat - q := by omega
        have hmin : min ((d + 1) * q) (total - cp).toNat
            = q + min (d * q) ((total - cp).toNat - q) := by
          have : (d + 1) * q = q + d * q := by ring
          omega
        rw [hm1, hm2, hmin, List.range_add, List.map_append, List.map_map]
        refine congrArg₂ (· ++ ·) ?_ ?_
        · refine List.map_congr_left fun j _ => ?_
          simp [hmk]
        · refine List.map_congr_left fun j _ => ?_
          simp only [Function.comp_apply]
          push_cast
          ring
      · intro hcond
        have hrest : ((d * q : Nat) : Int) ≤ total - (cp + (q : Int)) := by
          push_cast at hcond ⊢
          nlinarith
        rw [ih2 hrest]
        push_cast
        ring

/-- The claim's per-day page budget `floor(pages_per_minute * minutes_per_day)`,
as a natural number. -/
def dailyPages (r : ℚ) (m : Nat) : Nat := ⌊r * (m : ℚ)⌋.toNat

/-- Reduction of `create_reading_entries` on the happy path: the book is
found, has a nonzero page count, and the date parses. -/
theorem createReadingEntries_eq (locEpoch : Nat → Nat → Nat → Int) (db : DB)
    (bookId : Int) (startDate : String) (days minutesPerDay : Nat) (pagesPerMinute : ℚ)
    (book : Book) (P : Int) (m d y : Nat)
    (hfind : db.books.find? (fun b => b.id = bookId) = some book)
    (hp : book.pages = some P) (hP0 : P ≠ 0)
    (hparse : parseDateMDY startDate = some (m, d, y)) :
    createReadingEntries locEpoch db bookId startDate days minutesPerDay pagesPerMinute
      = (if (outerLoop (mkSession (locEpoch m d y) bookId P pagesPerMinute) P
            ((pagesToRead pagesPerMinute minutesPerDay).toNat) days 0 0).1 ≠ [] then
          ({ db with psd := db.psd ++ (outerLoop (mkSession (locEpoch m d y) bookId P
              pagesPerMinute) P ((pagesToRead pagesPerMinute minutesPerDay).toNat) days 0 0).1 },
            .inserted bookId (outerLoop (mkSession (locEpoch m d y) bookId P pagesPerMinute) P
              ((pagesToRead pagesPerMinute minutesPerDay).toNat) days 0 0).1.length
              (outerLoop (mkSession (locEpoch m d y) bookId P pagesPerMinute) P
              ((pagesToRead pagesPerMinute minutesPerDay).toNat) days 0 0).2)
        else (db, .noEntries bookId)) := by
  unfold createReadingEntries
  rw [hfind]
  simp only [hp, truthyPages, hparse]
  rw [if_neg hP0]

/-- C2: on an existing book with page count `P > 0`, a parsable start date
and a nonnegative rate, `create_reading_entries` inserts exactly
`min(days * floor(rate * minutes_per_day), P)` rows, every inserted row's
page number lies in `[1, P]`, and in the non-degenerate no-overshoot case
it reports that many insertions with the current page advanced to exactly
that count. -/
theorem create_reading_entries_count
    (locEpoch : Nat → Nat → Nat → Int) (db : DB) (bookId : Int) (startDate : String)
    (days minutesPerDay : Nat) (pagesPerMinute : ℚ) (book : Book) (P : Int) (m d y : Nat)
    (hnd : (db.books.map Book.id).Nodup) (hb : book ∈ db.books) (hid : book.id = bookId)
    (hp : book.pages = some P) (hP : 0 < P)
    (hparse : parseDateMDY startDate = some (m, d, y))
    (hr : 0 ≤ pagesPerMinute) :
    (createReadingEntries locEpoch db bookId startDate days minutesPerDay
        pagesPerMinute).1.psd.length
      = db.psd.length + min (days * dailyPages pagesPerMinute minutesPerDay) P.toNat
    ∧ (∀ e ∈ (createReadingEntries locEpoch db bookId startDate days minutesPerDay
        pagesPerMinute).1.psd, e ∉ db.psd → 1 ≤ e.page ∧ e.page ≤ P)
    ∧ (0 < days * dailyPages pagesPerMinute minutesPerDay →
        ((days * dailyPages pagesPerMinute minutesPerDay : Nat) : Int) ≤ P →
        (createReadingEntries locEpoch db bookId startDate days minutesPerDay
            pagesPerMinute).2
          = .inserted bookId (days * dailyPages pagesPerMinute minutesPerDay)
              ((days * dailyPages pagesPerMinute minutesPerDay : Nat) : Int)) := by
  have hfind := find?_of_nodup_ids hnd hb hid
  have hq : (pagesToRead pagesPerMinute minutesPerDay).toNat
      = dailyPages pagesPerMinute minutesPerDay := by
    rw [dailyPages, pagesToRead_eq_floor _ _ hr]
  have hred := createReadingEntries_eq locEpoch db bookId startDate days minutesPerDay
    pagesPerMinute book P m d y hfind hp (by omega) hparse
  rw [hq] at hred
  obtain ⟨o1, o2⟩ := outerLoop_spec (mkSession (locEpoch m d y) bookId P pagesPerMinute) P
    (dailyPages pagesPerMinute minutesPerDay) (fun a b c => rfl) days 0 0 hP
  rw [sub_zero] at o1 o2
  set q := dailyPages pagesPerMinute minutesPerDay
  set S := (outerLoop (mkSession (locEpoch m d y) bookId P pagesPerMinute) P q days 0 0)
    with hSdef
  have hlen : S.1.length = min (days * q) P.toNat := by
    have := congrArg List.length o1
    simpa using this
  by_cases hS : S.1 = []
  · have hmin0 : min (days * q) P.toNat = 0 := by rw [← hlen, hS]; rfl
    rw [hred, if_neg (by simp [hS])]
    refine ⟨by simp [hmin0], ?_, ?_⟩
    · intro e he hnot
      exact absurd he hnot
    · intro hpos hle
      exfalso
      have hle2 : days * q ≤ P.toNat := by omega
      omega
  · rw [hred, if_pos (by simp [hS])]
    refine ⟨?_, ?_, ?_⟩
    · simp [hlen]
    · intro e he hnot
      simp only [List.mem_append] at he
      rcases he with he | he
      · exact absurd he hnot
      · have hpage : e.page ∈ S.1.map (fun x => x.page) := List.mem_map_of_mem _ he
        rw [o1] at hpage
        simp only [List.mem_map, List.mem_range] at hpage
        obtain ⟨j, hj, hje⟩ := hpage
        have hjlt : j < P.toNat := lt_of_lt_of_le hj (min_le_right _ _)
        constructor <;> omega
    · intro hpos hle
      have hminq : min (days * q) P.toNat = days * q := by omega
      have ho2 := o2 hle
      show EntryResult.inserted bookId S.1.length S.2 = _
      rw [hlen, hminq, ho2, zero_add]

/-- Witness for C2 at the spec's concrete instance: a 100-page book, one
day of 60 minutes at 1 page per minute inserts exactly
`min(1·60, 100) = 60` rows and reports the current page advanced to 60. -/
theorem create_reading_entries_count_witness :
    (0 : ℚ) ≤ 1
    ∧ parseDateMDY "01/01/2024" = some (1, 1, 2024)
    ∧ dailyPages 1 60 = 60
    ∧ (createReadingEntries (fun _ _ _ => 0) ⟨[⟨1, "A", some 100, none, none⟩], []⟩ 1
        "01/01/2024" 1 60 1).1.psd.length
      = 0 + min (1 * dailyPages 1 60) ((100 : Int)).toNat
    ∧ (createReadingEntries (fun _ _ _ => 0) ⟨[⟨1, "A", some 100, none, none⟩], []⟩ 1
        "01/01/2024" 1 60 1).2
      = .inserted 1 (1 * dailyPages 1 60) ((1 * dailyPages 1 60 : Nat) : Int) := by
  have h := create_reading_entries_count (fun _ _ _ => 0)
    ⟨[⟨1, "A", some 100, none, none⟩], []⟩ 1 "01/01/2024" 1 60 1
    ⟨1, "A", some 100, none, none⟩ 100 1 1 2024
    (by decide) (by decide) rfl rfl (by decide) (by decide) (by decide)
  refine ⟨by decide, by decide, by simp [dailyPages], ?_, ?_⟩
  · simpa using h.1
  · exact h.2.2 (by simp [dailyPages]) (by simp [dailyPages])

/-- C10: on the happy path the generator's batch `S` numbers its rows'
pages consecutively `1, 2, …`, is computed without looking at the existing
`page_stat_data` rows (any database with the same `book` table receives
the same batch appended to its own rows), and a repeated identical call
appends the same batch a second time, duplicating every page number. -/
theorem create_reading_entries_pages
    (locEpoch : Nat → Nat → Nat → Int) (db : DB) (bookId : Int) (startDate : String)
    (days minutesPerDay : Nat) (pagesPerMinute : ℚ) (book : Book) (P : Int) (m d y : Nat)
    (hnd : (db.books.map Book.id).Nodup) (hb : book ∈ db.books) (hid : book.id = bookId)
    (hp : book.pages = some P) (hP : 0 < P)
    (hparse : parseDateMDY startDate = some (m, d, y)) :
    ∃ S : List PageStat,
      (createReadingEntries locEpoch db bookId startDate days minutesPerDay
          pagesPerMinute).1.psd = db.psd ++ S
      ∧ S.map (fun e => e.page)
          = (List.range S.length).map (fun j : Nat => (j : Int) + 1)
      ∧ (∀ db2 : DB, db2.books = db.books →
          (createReadingEntries locEpoch db2 bookId startDate days minutesPerDay
              pagesPerMinute).1.psd = db2.psd ++ S)
      ∧ (createReadingEntries locEpoch
          (createReadingEntries locEpoch db bookId startDate days minutesPerDay
            pagesPerMinute).1
          bookId startDate days minutesPerDay pagesPerMinute).1.psd
          = db.psd ++ S ++ S := by
  have hfind := find?_of_nodup_ids hnd hb hid
  set q := (pagesToRead pagesPerMinute minutesPerDay).toNat with hqdef
  set S := (outerLoop (mkSession (locEpoch m d y) bookId P pagesPerMinute) P q days 0 0)
    with hSdef
  have hout : ∀ db2 : DB, db2.books = db.books →
      (createReadingEntries locEpoch db2 bookId startDate days minutesPerDay
        pagesPerMinute).1.psd = db2.psd ++ S.1
      ∧ (createReadingEntries locEpoch db2 bookId startDate days minutesPerDay
        pagesPerMinute).1.books = db2.books := by
    intro db2 hdb2
    have hfind2 : db2.books.find? (fun b => b.id = bookId) = some book := by
      rw [hdb2]; exact hfind
    have hred2 := createReadingEntries_eq locEpoch db2 bookId startDate days minutesPerDay
      pagesPerMinute book P m d y hfind2 hp (by omega) hparse
    rw [hred2]
    by_cases hS : S.1 = []
    · rw [if_neg (by simp [← hSdef, hS])]
      exact ⟨by simp [hS], rfl⟩
    · rw [if_pos (by simp [← hSdef, hS])]
      exact ⟨rfl, rfl⟩
  obtain ⟨o1, _⟩ := outerLoop_spec (mkSession (locEpoch m d y) bookId P pagesPerMinute) P q
    (fun a b c => rfl) days 0 0 hP
  rw [sub_zero] at o1
  refine ⟨S.1, (hout db rfl).1, ?_, fun db2 h => (hout db2 h).1, ?_⟩
  · have hlen : S.1.length = min (days * q) P.toNat := by
      have := congrArg List.length o1
      simpa using this
    rw [o1, hlen]
    refine List.map_congr_left fun j _ => ?_
    ring
  · have h1 := (hout db rfl).1
    have h2 := (hout (createReadingEntries locEpoch db bookId startDate days minutesPerDay
      pagesPerMinute).1 (hout db rfl).2).1
    rw [h2, h1, List.append_assoc]

/-- Witness for C10: a second identical call on the mutated database
duplicates the batch of consecutively numbered pages. -/
theorem create_reading_entries_pages_witness :
    parseDateMDY "01/01/2024" = some (1, 1, 2024)
    ∧ ∃ S : List PageStat,
      (createReadingEntries (fun _ _ _ => 0) ⟨[⟨1, "A", some 3, none, none⟩],
          [⟨1, 9, 5, 60, 3⟩]⟩ 1 "01/01/2024" 1 60 1).1.psd = [⟨1, 9, 5, 60, 3⟩] ++ S
      ∧ S.map (fun e => e.page)
          = (List.range S.length).map (fun j : Nat => (j : Int) + 1)
      ∧ (∀ db2 : DB, db2.books = [⟨1, "A", some 3, none, none⟩] →
          (createReadingEntries (fun _ _ _ => 0) db2 1 "01/01/2024" 1 60 1).1.psd
            = db2.psd ++ S)
      ∧ (createReadingEntries (fun _ _ _ => 0)
          (createReadingEntries (fun _ _ _ => 0) ⟨[⟨1, "A", some 3, none, none⟩],
            [⟨1, 9, 5, 60, 3⟩]⟩ 1 "01/01/2024" 1 60 1).1
          1 "01/01/2024" 1 60 1).1.psd = [⟨1, 9, 5, 60, 3⟩] ++ S ++ S := by
  refine ⟨by decide, ?_⟩
  exact create_reading_entries_pages (fun _ _ _ => 0)
    ⟨[⟨1, "A", some 3, none, none⟩], [⟨1, 9, 5, 60, 3⟩]⟩ 1 "01/01/2024" 1 60 1
    ⟨1, "A", some 3, none, none⟩ 3 1 1 2024
    (by decide) (by decide) rfl rfl (by decide) (by decide)

/-- C3: `create_reading_entries` rejects a missing book id with the
not-found outcome and an unparsable `MM/DD/YYYY` date with the
validation-failure outcome; in either case the returned state is exactly
the input database, so zero `page_stat_data` rows are inserted. -/
theorem create_reading_entries_rejects
    (locEpoch : Nat → Nat → Nat → Int) (db : DB) (bookId : Int) (startDate : String)
    (days minutesPerDay : Nat) (pagesPerMinute : ℚ) :
    (db.books.find? (fun b => b.id = bookId) = none →
      createReadingEntries locEpoch db bookId startDate days minutesPerDay pagesPerMinute
        = (db, .notFound bookId))
    ∧ (∀ book P, db.books.find? (fun b => b.id = bookId) = some book →
        book.pages = some P → P ≠ 0 →
        parseDateMDY startDate = none →
        createReadingEntries locEpoch db bookId startDate days minutesPerDay pagesPerMinute
          = (db, .invalidDate)) := by
  constructor
  · intro h
    unfold createReadingEntries
    rw [h]
  · intro book P hfind hp hP0 hparse
    unfold createReadingEntries
    rw [hfind]
    simp only [hp, truthyPages, hparse]
    rw [if_neg hP0]

/-- Witness for C3: book id 2 is absent, and the spec's concrete invalid
date `"13/40/2024"` fails to parse; both calls leave the database
untouched. -/
theorem create_reading_entries_rejects_witness :
    ((⟨[⟨1, "A", some 100, none, none⟩], []⟩ : DB).books.find? (fun b => b.id = 2) = none
      ∧ createReadingEntries (fun _ _ _ => 0) ⟨[⟨1, "A", some 100, none, none⟩], []⟩ 2
          "01/01/2024" 1 60 1 = (⟨[⟨1, "A", some 100, none, none⟩], []⟩, .notFound 2))
    ∧ (parseDateMDY "13/40/2024" = none
      ∧ createReadingEntries (fun _ _ _ => 0) ⟨[⟨1, "A", some 100, none, none⟩], []⟩ 1
          "13/40/2024" 1 60 1 = (⟨[⟨1, "A", some 100, none, none⟩], []⟩, .invalidDate)) := by
  refine ⟨⟨by decide, ?_⟩, ⟨by decide, ?_⟩⟩
  · exact (create_reading_entries_rejects (fun _ _ _ => 0)
      ⟨[⟨1, "A", some 100, none, none⟩], []⟩ 2 "01/01/2024" 1 60 1).1 (by decide)
  · exact (create_reading_entries_rejects (fun _ _ _ => 0)
      ⟨[⟨1, "A", some 100, none, none⟩], []⟩ 1 "13/40/2024" 1 60 1).2
      ⟨1, "A", some 100, none, none⟩ 100 (by decide) rfl (by decide) (by decide)

/-! ### Summary queries (utils/summary.py)

Dates: SQLite's `date(datetime(t, 'unixepoch', 'localtime'))` is modelled
as the civil day index of `t` shifted by the viewer's UTC offset `tz`
(in seconds); the `'0 seconds'` variant is the unshifted UTC day index.
`strftime('%Y', ...)`/`'%m'` come from the standard days-to-civil-date
conversion. -/

/-- Day index (days since 1970-01-01) of epoch second `t` in a timezone
`tz` seconds east of UTC. -/
def dateOf (tz t : Int) : Int := (t + tz).fdiv 86400

/-- UTC day index of epoch second `t` (`'0 seconds'` modifier). -/
def utcDate (t : Int) : Int := t.fdiv 86400

/-- Year and month of a civil day index, by the standard civil-from-days
algorithm. -/
def civilYM (z : Int) : Int × Int :=
  let z2 := z + 719468
  let era := z2.fdiv 146097
  let doe := z2 - era * 146097
  let yoe := (doe - doe.fdiv 1460 + doe.fdiv 36524 - doe.fdiv 146096).fdiv 365
  let y := yoe + era * 400
  let doy := doe - (365 * yoe + yoe.fdiv 4 - yoe.fdiv 100)
  let mp := (5 * doy + 2).fdiv 153
  let m := mp + (if mp < 10 then 3 else -9)
  (if m ≤ 2 then y + 1 else y, m)

/-- Year `strftime('%Y', ...)` of a day index. -/
def civilYear (z : Int) : Int := (civilYM z).1

/-- Month `strftime('%m', ...)` of a day index. -/
def civilMonth (z : Int) : Int := (civilYM z).2

/-- Ascending insertion, for modelling `ORDER BY`. -/
def insertAsc (a : Int) : List Int → List Int
  | [] => [a]
  | b :: t => if a ≤ b then a :: b :: t else b :: insertAsc a t

/-- Insertion sort of day indices (`ORDER BY reading_date`). -/
def sortInts : List Int → List Int
  | [] => []
  | a :: t => insertAsc a (sortInts t)

/-- Rows of `page_stat_data` for one book (`WHERE psd.id_book = X`). -/
def bookRows (db : DB) (bid : Int) : List PageStat :=
  db.psd.filter (fun r => r.id_book = bid)

/-- Query `SELECT MAX(page) FROM page_stat_data WHERE id_book = X`: `NULL` when
the book has no rows. -/
def maxPage (rows : List PageStat) : Option Int :=
  rows.foldl (fun acc r =>
    match acc with
    | none => some r.page
    | some m => some (max m r.page)) none

/-- The distinct reading dates of a row set, ascending (`GROUP BY
reading_date ORDER BY reading_date`). -/
def readingDates (tz : Int) (rows : List PageStat) : List Int :=
  sortInts ((rows.map (fun r => dateOf tz r.start_time)).dedup)

/-- Count `COUNT(DISTINCT psd.page)` among one date's rows. -/
def distinctPagesOn (tz : Int) (rows : List PageStat) (day : Int) : Nat :=
  ((rows.filter (fun r => dateOf tz r.start_time = day)).map
    (fun r => r.page)).dedup.length

/-- The `pages_read` column: per-date distinct-page counts, date-ascending. -/
def dailyCounts (tz : Int) (rows : List PageStat) : List Nat :=
  (readingDates tz rows).map (distinctPagesOn tz rows)

/-- pandas `.cumsum()` with a running accumulator. -/
def cumsumFrom (acc : Nat) : List Nat → List Nat
  | [] => []
  | x :: t => (acc + x) :: cumsumFrom (acc + x) t

/-- pandas `.cumsum()`. -/
def cumsum (l : List Nat) : List Nat := cumsumFrom 0 l

/-- The `Completion %` column computed from a fetched `MAX(page)` value
and the cumulative counts: `(cum / total_pages * 100).clip(upper=100)`,
empty under the `if not total_pages or total_pages == 0` early return. -/
def completionPctsOf (tp : Option Int) (cum : List Nat) : List ℚ :=
  match tp with
  | none => []
  | some t =>
    if t = 0 then []
    else cum.map (fun c : Nat => min ((c : ℚ) / (t : ℚ) * 100) 100)

/-- The `Completion %` column of `plot_book_completion_over_time` for one
book: note the denominator is the book's own `MAX(page)` from
`page_stat_data`, not the `book.pages` column. -/
def completionPcts (tz : Int) (db : DB) (bid : Int) : List ℚ :=
  completionPctsOf (maxPage (bookRows db bid)) (cumsum (dailyCounts tz (bookRows db bid)))

/-- The plotted series: all rows below 100 % followed by the first row at
100 % (`pd.concat([df_incomplete, df_complete_first=...head(1)])`). -/
def completionSeries (tz : Int) (db : DB) (bid : Int) : List ℚ :=
  (completionPcts tz db bid).filter (fun x => x < 100)
    ++ ((completionPcts tz db bid).filter (fun x => x = 100)).take 1

/-- The formula the claim states for the plotted completion percentage,
following the spec's words: cumulative DISTINCT pages read over the first
`i + 1` reading dates, divided by the book's total page count (its
`book.pages` column), times 100, capped at 100. -/
def specCompletionPct (tz : Int) (db : DB) (bid : Int) (i : Nat) : Option ℚ :=
  match db.books.find? (fun b => b.id = bid) with
  | none => none
  | some b =>
    match b.pages with
    | none => none
    | some P =>
      some (min (((((bookRows db bid).filter (fun r =>
          dateOf tz r.start_time ∈ (readingDates tz (bookRows db bid)).take (i + 1))).map
          (fun r => r.page)).dedup.length : ℚ) / (P : ℚ) * 100) 100)

theorem cumsumFrom_get? : ∀ (l : List Nat) (acc i : Nat), i < l.length →
    (cumsumFrom acc l).get? i = some (acc + (l.take (i + 1)).sum) := by
  intro l
  induction l with
  | nil =>
    intro acc i hi
    simp at hi
  | cons x t ih =>
    intro acc i hi
    cases i with
    | zero => simp [cumsumFrom]
    | succ n =>
      have hn : n < t.length := by simpa using hi
      show (cumsumFrom (acc + x) t).get? n = _
      rw [ih (acc + x) n hn]
      congr 1
      simp only [List.take_succ_cons, List.sum_cons]
      omega

theorem cumsumFrom_pairwise : ∀ (l : List Nat) (acc : Nat),
    (cumsumFrom acc l).Pairwise (· ≤ ·) ∧ ∀ x ∈ cumsumFrom acc l, acc ≤ x := by
  intro l
  induction l with
  | nil =>
    intro acc
    constructor <;> simp [cumsumFrom]
  | cons x t ih =>
    intro acc
    obtain ⟨h1, h2⟩ := ih (acc + x)
    refine ⟨List.Pairwise.cons (fun y hy => h2 y hy) h1, ?_⟩
    intro y hy
    rcases List.mem_cons.1 hy with rfl | hy'
    · omega
    · have := h2 y hy'
      omega

theorem maxPage_nonneg : ∀ (rows : List PageStat) (acc : Option Int) (tp : Int),
    (∀ r ∈ rows, 0 ≤ r.page) → (∀ a, acc = some a → 0 ≤ a) →
    rows.foldl (fun acc r =>
      match acc with
      | none => some r.page
      | some m => some (max m r.page)) acc = some tp →
    0 ≤ tp := by
  intro rows
  induction rows with
  | nil =>
    intro acc tp _ hacc h
    exact hacc tp h
  | cons r t ih =>
    intro acc tp hr hacc h
    rw [List.foldl_cons] at h
    refine ih _ tp (fun s hs => hr s (List.mem_cons_of_mem _ hs)) ?_ h
    intro a ha
    cases acc with
    | none =>
      have h' : r.page = a := by simpa using ha
      rw [← h']
      exact hr r (List.mem_cons_self _ _)
    | some m =>
      have h' : max m r.page = a := by simpa using ha
      rw [← h']
      exact le_max_of_le_right (hr r (List.mem_cons_self _ _))

/-- When every computed percentage is below 100 the trimming step keeps
the whole column. -/
theorem completionSeries_eq_pcts (tz : Int) (db : DB) (bid : Int)
    (h : ∀ x ∈ completionPcts tz db bid, x < 100) :
    completionSeries tz db bid = completionPcts tz db bid := by
  rw [completionSeries]
  have h1 : (completionPcts tz db bid).filter (fun x => x < 100)
      = completionPcts tz db bid :=
    List.filter_eq_self.2 fun a ha => by simpa using h a ha
  have h2 : (completionPcts tz db bid).filter (fun x => x = 100) = [] :=
    List.filter_eq_nil_iff.2 fun a ha => by simpa using ne_of_lt (h a ha)
  rw [h1, h2]
  simp

/-- C4 (amended): on the code, the percentage computed at point `i` is
`min(100, 100 · (sum of the first i+1 per-date distinct-page counts) /
MAX(page))` — the denominator is the furthest recorded page, not the
book's page count, and the numerator re-counts pages re-read on later
dates. -/
theorem completion_pct_formula (tz : Int) (db : DB) (bid tp : Int) (i : Nat)
    (hmax : maxPage (bookRows db bid) = some tp) (htp : tp ≠ 0)
    (hi : i < (dailyCounts tz (bookRows db bid)).length) :
    (completionPcts tz db bid).get? i
      = some (min ((((dailyCounts tz (bookRows db bid)).take (i + 1)).sum : ℚ)
          / (tp : ℚ) * 100) 100) := by
  rw [completionPcts, hmax]
  show (if tp = 0 then [] else (cumsum (dailyCounts tz (bookRows db bid))).map
      (fun c : Nat => min ((c : ℚ) / (tp : ℚ) * 100) 100)).get? i = _
  rw [if_neg htp, List.get?_map, cumsum, cumsumFrom_get? _ 0 i hi]
  simp

/-- Witness for the amended C4 on a concrete book: the second point is
`min(100, (1+1)/5·100)`. -/
theorem completion_pct_formula_witness :
    maxPage (bookRows ⟨[⟨1, "A", some 200, none, none⟩],
        [⟨1, 5, 0, 60, 200⟩, ⟨1, 5, 86400, 60, 200⟩]⟩ 1) = some 5
    ∧ (5 : Int) ≠ 0
    ∧ 1 < (dailyCounts 0 (bookRows ⟨[⟨1, "A", some 200, none, none⟩],
        [⟨1, 5, 0, 60, 200⟩, ⟨1, 5, 86400, 60, 200⟩]⟩ 1)).length
    ∧ (completionPcts 0 ⟨[⟨1, "A", some 200, none, none⟩],
        [⟨1, 5, 0, 60, 200⟩, ⟨1, 5, 86400, 60, 200⟩]⟩ 1).get? 1
      = some (min ((((dailyCounts 0 (bookRows ⟨[⟨1, "A", some 200, none, none⟩],
          [⟨1, 5, 0, 60, 200⟩, ⟨1, 5, 86400, 60, 200⟩]⟩ 1)).take 2).sum : ℚ)
          / ((5 : Int) : ℚ) * 100) 100) :=
  ⟨by decide, by decide, by decide,
    completion_pct_formula 0 ⟨[⟨1, "A", some 200, none, none⟩],
      [⟨1, 5, 0, 60, 200⟩, ⟨1, 5, 86400, 60, 200⟩]⟩ 1 5 1 (by decide) (by decide) (by decide)⟩

/-- Counterexample to C4 as stated: a 200-page book whose only recorded
page is page 5, read on two different days.  The code plots 40 % at the
second point (cumulative daily counts 1+1 over `MAX(page) = 5`), while
the claim's formula — cumulative distinct pages over the book's page
count — gives 0.5 %. -/
theorem completion_pct_counterexample :
    (completionSeries 0 ⟨[⟨1, "A", some 200, none, none⟩],
        [⟨1, 5, 0, 60, 200⟩, ⟨1, 5, 86400, 60, 200⟩]⟩ 1).get? 1 = some 40
    ∧ specCompletionPct 0 ⟨[⟨1, "A", some 200, none, none⟩],
        [⟨1, 5, 0, 60, 200⟩, ⟨1, 5, 86400, 60, 200⟩]⟩ 1 1 = some (1 / 2)
    ∧ (completionSeries 0 ⟨[⟨1, "A", some 200, none, none⟩],
        [⟨1, 5, 0, 60, 200⟩, ⟨1, 5, 86400, 60, 200⟩]⟩ 1).get? 1
      ≠ specCompletionPct 0 ⟨[⟨1, "A", some 200, none, none⟩],
        [⟨1, 5, 0, 60, 200⟩, ⟨1, 5, 86400, 60, 200⟩]⟩ 1 1 := by
  have hmax : maxPage (bookRows ⟨[⟨1, "A", some 200, none, none⟩],
      [⟨1, 5, 0, 60, 200⟩, ⟨1, 5, 86400, 60, 200⟩]⟩ 1) = some 5 := by decide
  have hcum : cumsum (dailyCounts 0 (bookRows ⟨[⟨1, "A", some 200, none, none⟩],
      [⟨1, 5, 0, 60, 200⟩, ⟨1, 5, 86400, 60, 200⟩]⟩ 1)) = [1, 2] := by decide
  have hpcts : completionPcts 0 ⟨[⟨1, "A", some 200, none, none⟩],
      [⟨1, 5, 0, 60, 200⟩, ⟨1, 5, 86400, 60, 200⟩]⟩ 1 = [20, 40] := by
    rw [completionPcts, hmax, hcum]
    show (if (5 : Int) = 0 then [] else _) = _
    rw [if_neg (by norm_num)]
    norm_num [min_def]
  have hseries : completionSeries 0 ⟨[⟨1, "A", some 200, none, none⟩],
      [⟨1, 5, 0, 60, 200⟩, ⟨1, 5, 86400, 60, 200⟩]⟩ 1 = [20, 40] := by
    rw [completionSeries_eq_pcts _ _ _ ?_, hpcts]
    rw [hpcts]
    intro x hx
    rcases List.mem_cons.1 hx with rfl | hx'
    · norm_num
    · rcases List.mem_cons.1 hx' with rfl | hx''
      · norm_num
      · simp at hx''
  have hlen1 : (((bookRows ⟨[⟨1, "A", some 200, none, none⟩],
      [⟨1, 5, 0, 60, 200⟩, ⟨1, 5, 86400, 60, 200⟩]⟩ 1).filter (fun r =>
      dateOf 0 r.start_time ∈ (readingDates 0 (bookRows ⟨[⟨1, "A", some 200, none, none⟩],
      [⟨1, 5, 0, 60, 200⟩, ⟨1, 5, 86400, 60, 200⟩]⟩ 1)).take 2)).map
      (fun r => r.page)).dedup.length = 1 := by decide
  have hspec : specCompletionPct 0 ⟨[⟨1, "A", some 200, none, none⟩],
      [⟨1, 5, 0, 60, 200⟩, ⟨1, 5, 86400, 60, 200⟩]⟩ 1 1 = some (1 / 2) := by
    show some (min (((((bookRows _ 1).filter _).map _).dedup.length : ℚ)
      / ((200 : Int) : ℚ) * 100) 100) = _
    rw [hlen1]
    norm_num [min_def]
  refine ⟨?_, hspec, ?_⟩
  · rw [hseries]
    rfl
  · rw [hseries, hspec]
    norm_num

/-! ### Structure of the trimmed completion series (C7) -/

theorem trimmed_le_100 (l : List ℚ) :
    ∀ x ∈ (l.filter (fun x => x < 100) ++ (l.filter (fun x => x = 100)).take 1), x ≤ 100 := by
  intro x hx
  rcases List.mem_append.1 hx with h | h
  · exact le_of_lt (by simpa using (List.mem_filter.1 h).2)
  · have hx' := List.mem_filter.1 (List.mem_of_mem_take h)
    have : x = 100 := by simpa using hx'.2
    rw [this]

theorem trimmed_last_100 (l : List ℚ) (i : Nat)
    (h : (l.filter (fun x => x < 100) ++ (l.filter (fun x => x = 100)).take 1).get? i
        = some 100) :
    i + 1 = (l.filter (fun x => x < 100) ++ (l.filter (fun x => x = 100)).take 1).length := by
  set l₁ := l.filter (fun x => x < 100) with hl₁
  set l₂ := (l.filter (fun x => x = 100)).take 1 with hl₂
  have hlen2 : l₂.length ≤ 1 := by
    rw [hl₂]
    exact le_trans (List.length_take_le _ _) le_rfl
  by_cases hi : i < l₁.length
  · exfalso
    rw [List.get?_append hi] at h
    have hmem := List.get?_mem h
    have := (List.mem_filter.1 hmem).2
    simp at this
  · push_neg at hi
    rw [List.get?_append_right hi] at h
    have hlt : i - l₁.length < l₂.length := by
      by_contra hge
      push_neg at hge
      rw [List.get?_eq_none.2 hge] at h
      cases h
    rw [List.length_append]
    omega

theorem trimmed_pairwise (l : List ℚ) (hl : l.Pairwise (· ≤ ·)) :
    (l.filter (fun x => x < 100)
      ++ (l.filter (fun x => x = 100)).take 1).Pairwise (· ≤ ·) := by
  rw [List.pairwise_append]
  refine ⟨List.Pairwise.filter _ hl, ?_, ?_⟩
  · exact List.Pairwise.sublist ((List.take_sublist _ _).trans (List.filter_sublist _))
      hl
  · intro a ha b hb
    have ha' : a < 100 := by simpa using (List.mem_filter.1 ha).2
    have hb' : b = 100 := by simpa using (List.mem_filter.1 (List.mem_of_mem_take hb)).2
    rw [hb']
    exact le_of_lt ha'

/-- C7: under the data-model assumption that recorded page numbers are
nonnegative, the plotted per-book completion series is non-decreasing,
bounded by 100, and has no further points after the first point that
reaches 100. -/
theorem completion_series_props (tz : Int) (db : DB) (bid : Int)
    (hpg : ∀ r ∈ db.psd, 0 ≤ r.page) :
    (completionSeries tz db bid).Pairwise (· ≤ ·)
    ∧ (∀ x ∈ completionSeries tz db bid, x ≤ 100)
    ∧ ∀ i : Nat, (completionSeries tz db bid).get? i = some 100 →
        i + 1 = (completionSeries tz db bid).length := by
  have hpair : (completionPcts tz db bid).Pairwise (· ≤ ·) := by
    rw [completionPcts]
    rcases hmp : maxPage (bookRows db bid) with _ | tp
    · simp [completionPctsOf]
    · have htp0 : 0 ≤ tp := maxPage_nonneg (bookRows db bid) none tp
        (fun r hr => hpg r (List.mem_filter.1 hr).1) (by simp) hmp
      by_cases htp : tp = 0
      · simp [completionPctsOf, htp]
      · show (if tp = 0 then [] else (cumsum (dailyCounts tz (bookRows db bid))).map
          (fun c : Nat => min ((c : ℚ) / (tp : ℚ) * 100) 100)).Pairwise (· ≤ ·)
        rw [if_neg htp]
        have hq : (0 : ℚ) < (tp : ℚ) := by
          have : 0 < tp := lt_of_le_of_ne htp0 (Ne.symm htp)
          exact_mod_cast this
        refine List.Pairwise.map _ ?_ (cumsumFrom_pairwise _ 0).1
        intro a b hab
        refine min_le_min ?_ le_rfl
        have hab' : (a : ℚ) ≤ (b : ℚ) := by exact_mod_cast hab
        gcongr
  exact ⟨trimmed_pairwise _ hpair, trimmed_le_100 _, fun i h => trimmed_last_100 _ i h⟩

/-- Witness for C7 on a concrete book whose series reaches 100 %. -/
theorem completion_series_props_witness :
    (∀ r ∈ (⟨[⟨1, "B", some 10, none, none⟩],
        [⟨1, 2, 0, 60, 10⟩, ⟨1, 2, 86400, 60, 10⟩]⟩ : DB).psd, 0 ≤ r.page)
    ∧ ((completionSeries 0 ⟨[⟨1, "B", some 10, none, none⟩],
          [⟨1, 2, 0, 60, 10⟩, ⟨1, 2, 86400, 60, 10⟩]⟩ 1).Pairwise (· ≤ ·)
      ∧ (∀ x ∈ completionSeries 0 ⟨[⟨1, "B", some 10, none, none⟩],
          [⟨1, 2, 0, 60, 10⟩, ⟨1, 2, 86400, 60, 10⟩]⟩ 1, x ≤ 100)
      ∧ ∀ i : Nat, (completionSeries 0 ⟨[⟨1, "B", some 10, none, none⟩],
          [⟨1, 2, 0, 60, 10⟩, ⟨1, 2, 86400, 60, 10⟩]⟩ 1).get? i = some 100 →
          i + 1 = (completionSeries 0 ⟨[⟨1, "B", some 10, none, none⟩],
            [⟨1, 2, 0, 60, 10⟩, ⟨1, 2, 86400, 60, 10⟩]⟩ 1).length) :=
  ⟨by decide, completion_series_props 0 ⟨[⟨1, "B", some 10, none, none⟩],
    [⟨1, 2, 0, 60, 10⟩, ⟨1, 2, 86400, 60, 10⟩]⟩ 1 (by decide)⟩

/-! ### Reading speed (C5)

`create_books_read_summary` runs a per-date aggregate query returning two
columns `(reading_date, minutes_read)` (UTC dates in the past 30 days,
books 1, 3 and 10 excluded), then builds `df_books` from it with the
**three** column names `["Book Title", "Total Pages Read",
"Total Time Spent"]`.  pandas raises
`ValueError: 3 columns passed, passed data had 2 columns` for any
nonempty result, uncaught by `generate_summary`'s `except sqlite3.Error`,
so the per-book speed column of line 46 is never computed; an empty
result yields an empty frame with no book rows.
`create_year_in_review_summary` computes its aggregate speed with the
guard `... if total_hours_reading else 0`. -/

/-- Rows qualifying for the books-read-summary query: UTC reading date at
most 30 days before `now`'s UTC date, book id not in `(1, 3, 10)`. -/
def booksReadQualifying (db : DB) (now : Int) : List PageStat :=
  db.psd.filter (fun r => utcDate now - 30 ≤ utcDate r.start_time
    ∧ r.id_book ≠ 1 ∧ r.id_book ≠ 3 ∧ r.id_book ≠ 10)

/-- The two-column result of the books-read-summary query: one
`(reading_date, SUM(duration)/60.0)` row per UTC reading date, ascending. -/
def booksReadRows (db : DB) (now : Int) : List (Int × ℚ) :=
  (sortInts (((booksReadQualifying db now).map
      (fun r => utcDate r.start_time)).dedup)).map
    (fun d => (d, ((((booksReadQualifying db now).filter
      (fun r => utcDate r.start_time = d)).map (fun r => r.duration)).sum : Int) / (60 : ℚ)))

/-- Modelling `pd.DataFrame(data, columns=[c1, c2, c3])` applied to the
query's two-element rows: pandas raises
`ValueError: 3 columns passed, passed data had 2 columns` whenever `data`
is nonempty (`none` is that uncaught exception); empty `data` gives an
empty frame. -/
def frameThreeColsOfTwo (data : List (Int × ℚ)) : Option (List (Int × ℚ)) :=
  if data = [] then some [] else none

/-- Observable outcome of `create_books_read_summary`: the query rows fed
through the mismatched `pd.DataFrame` construction of line 38.  All later
steps — including the line-46 `Average Reading Speed (pages/hour)`
division — only ever run on the empty frame. -/
def createBooksReadSummary (db : DB) (now : Int) : Option (List (Int × ℚ)) :=
  frameThreeColsOfTwo (booksReadRows db now)

/-- Python truthiness of a nullable SQLite integer: `None` and `0` are
falsy. -/
def truthyInt : Option Int → Bool
  | none => false
  | some x => decide (x ≠ 0)

/-- Metric `avg_reading_speed` of `create_year_in_review_summary`:
`total_pages_read / total_hours_reading if total_hours_reading else 0`;
`none` models the `None / x` type error that a NULL numerator with a
truthy denominator would raise. -/
def yirAvgReadingSpeed (totalPages totalHours : Option Int) : Option ℚ :=
  if truthyInt totalHours then
    match totalPages, totalHours with
    | some p, some h => some ((p : ℚ) / (h : ℚ))
    | _, _ => none
  else some 0

/-- C5: the program cannot report a per-book reading speed at all.  At the
failing input — a book (id 2) whose only reading row has `duration = 0`,
inside the 30-day window — the query returns one `(day 19730, 0 minutes)`
row, and the books-read summary's DataFrame construction raises
(modelled `none`) before the line-46 speed column is ever computed.  The
year-in-review aggregate is the path that does report a zero speed, for a
zero or NULL hours total, without any division. -/
theorem reading_speed_report_crash :
    booksReadRows ⟨[⟨2, "A", some 9, none, none⟩],
        [⟨2, 1, 1704672000, 0, 9⟩]⟩ 1704672000 = [(19730, 0)]
    ∧ createBooksReadSummary ⟨[⟨2, "A", some 9, none, none⟩],
        [⟨2, 1, 1704672000, 0, 9⟩]⟩ 1704672000 = none
    ∧ yirAvgReadingSpeed (some 500) (some 0) = some 0
    ∧ yirAvgReadingSpeed (some 500) none = some 0 := by
  have h1 : booksReadRows ⟨[⟨2, "A", some 9, none, none⟩],
      [⟨2, 1, 1704672000, 0, 9⟩]⟩ 1704672000 = [(19730, ((0 : Int) : ℚ) / 60)] := rfl
  refine ⟨?_, ?_, rfl, rfl⟩
  · rw [h1]
    norm_num
  · rw [createBooksReadSummary, frameThreeColsOfTwo, if_neg (by rw [h1]; simp)]

/-! ### Time-series windows (C6) -/

/-- The `WHERE` filter of the past-30-days query: UTC reading date at most
30 days before `now`'s UTC date, excluding book id 10. -/
def past30Qualifying (db : DB) (now : Int) : List PageStat :=
  db.psd.filter (fun r => utcDate now - 30 ≤ utcDate r.start_time ∧ r.id_book ≠ 10)

/-- The single row the past-30-days query returns: it computes
`SUM(duration)/60.0` with **no GROUP BY**, so SQLite yields exactly one
row whose bare `reading_date` column comes from one qualifying row
(modelled as the last) and is `NULL` when none qualifies; the `NULL`/`NaN`
row is dropped by the left merge and `fillna(0)`. -/
def past30Row (db : DB) (now : Int) : Option Int × ℚ :=
  if past30Qualifying db now = [] then (none, 0)
  else (((past30Qualifying db now).map (fun r => utcDate r.start_time)).getLast?,
    ((((past30Qualifying db now).map (fun r => r.duration)).sum : Int) : ℚ) / 60)

/-- Series of `plot_past_30_days_reading`: one entry per calendar day
of the 30-day pandas date range ending `today`, left-merged with the query
row and zero-filled. -/
def past30Series (db : DB) (now today : Int) : List (Int × ℚ) :=
  (List.range 30).map (fun k : Nat =>
    (today - 29 + k, if (past30Row db now).1 = some (today - 29 + (k : Int))
      then (past30Row db now).2 else 0))

/-- The rows feeding the current-year timeline query of
`plot_pages_read_timeline`: local reading date in the display year. -/
def timelineRows (tz nowYear : Int) (db : DB) : List PageStat :=
  db.psd.filter (fun r => civilYear (dateOf tz r.start_time) = nowYear)

/-- Series of `plot_pages_read_timeline`: one `(date, COUNT(DISTINCT page))`
entry per date **with recorded activity**, date-ascending — the code
applies no zero-fill to this chart. -/
def timelineSeries (tz nowYear : Int) (db : DB) : List (Int × Nat) :=
  (readingDates tz (timelineRows tz nowYear db)).map
    (fun day => (day, distinctPagesOn tz (timelineRows tz nowYear db) day))

theorem mem_insertAsc {b a : Int} {l : List Int} : b ∈ insertAsc a l ↔ b = a ∨ b ∈ l := by
  induction l with
  | nil => simp [insertAsc]
  | cons c t ih =>
    show b ∈ (if a ≤ c then a :: c :: t else c :: insertAsc a t) ↔ _
    split_ifs with hac
    · simp
    · simp only [List.mem_cons, ih]
      tauto

theorem mem_sortInts {a : Int} {l : List Int} : a ∈ sortInts l ↔ a ∈ l := by
  induction l with
  | nil => simp [sortInts]
  | cons c t ih =>
    show a ∈ insertAsc c (sortInts t) ↔ _
    rw [mem_insertAsc, ih]
    simp

/-- Counterexample to C6 as stated: reading activity on the days
19730 and 19732 (both in 2024) with none on 19731 produces a current-year
timeline with only two points — the in-window day 19731 is omitted, not
zero-filled. -/
theorem timeline_gap_counterexample :
    (timelineSeries 0 2024 ⟨[⟨1, "A", some 9, none, none⟩],
        [⟨1, 1, 1704672000, 60, 9⟩, ⟨1, 2, 1704844800, 60, 9⟩]⟩).map Prod.fst
      = [19730, 19732]
    ∧ civilYear 19731 = 2024
    ∧ ∀ p ∈ timelineSeries 0 2024 ⟨[⟨1, "A", some 9, none, none⟩],
        [⟨1, 1, 1704672000, 60, 9⟩, ⟨1, 2, 1704844800, 60, 9⟩]⟩, p.1 ≠ 19731 := by
  refine ⟨by decide, by decide, by decide⟩

/-- C6 (amended): the past-30-days chart does produce exactly one entry
per calendar day of its window with zeros for days without attributed
activity, but the current-year timeline only contains the days that have
recorded activity — days without activity are omitted from it. -/
theorem window_series_shape (db : DB) (now today tz nowYear : Int) :
    (past30Series db now today).map Prod.fst
      = (List.range 30).map (fun k : Nat => today - 29 + (k : Int))
    ∧ (∀ d : Int, (∀ r ∈ past30Qualifying db now, utcDate r.start_time ≠ d) →
        ∀ p ∈ past30Series db now today, p.1 = d → p.2 = 0)
    ∧ (∀ p ∈ timelineSeries tz nowYear db, ∃ r ∈ db.psd,
        civilYear (dateOf tz r.start_time) = nowYear ∧ dateOf tz r.start_time = p.1) := by
  refine ⟨?_, ?_, ?_⟩
  · rw [past30Series, List.map_map]
    rfl
  · intro d hd p hp hpd
    rw [past30Series] at hp
    obtain ⟨k, _, rfl⟩ := List.mem_map.1 hp
    by_cases hq : past30Qualifying db now = []
    · have : (past30Row db now).1 = none := by rw [past30Row, if_pos hq]
      simp only [this] at hpd ⊢
      rw [if_neg (by simp)]
    · have h1 : (past30Row db now).1
          = ((past30Qualifying db now).map (fun r => utcDate r.start_time)).getLast? := by
        rw [past30Row, if_neg hq]
      by_cases hch : (past30Row db now).1 = some (today - 29 + (k : Int))
      · exfalso
        rw [h1] at hch
        have hmem := List.mem_of_mem_getLast? hch
        obtain ⟨r, hr, hrd⟩ := List.mem_map.1 hmem
        subst hpd
        exact hd r hr (by rw [hrd])
      · simp only at hpd ⊢
        rw [if_neg hch]
  · intro p hp
    rw [timelineSeries] at hp
    obtain ⟨day, hday, rfl⟩ := List.mem_map.1 hp
    rw [readingDates, mem_sortInts, List.mem_dedup] at hday
    obtain ⟨r, hr, hrd⟩ := List.mem_map.1 hday
    have hr' := List.mem_filter.1 hr
    refine ⟨r, hr'.1, by simpa using hr'.2, by simpa using hrd⟩

/-- Witness for the amended C6: over a concrete database, the 30-day
window has one entry per day and a day without attributed activity
reports zero. -/
theorem window_series_shape_witness :
    ((past30Series ⟨[⟨1, "A", some 9, none, none⟩],
        [⟨1, 1, 1704672000, 60, 9⟩, ⟨1, 2, 1704844800, 60, 9⟩]⟩ 1704672000 19760).map Prod.fst
      = (List.range 30).map (fun k : Nat => 19760 - 29 + (k : Int)))
    ∧ (∀ r ∈ past30Qualifying ⟨[⟨1, "A", some 9, none, none⟩],
        [⟨1, 1, 1704672000, 60, 9⟩, ⟨1, 2, 1704844800, 60, 9⟩]⟩ 1704672000,
        utcDate r.start_time ≠ 19759)
    ∧ (∀ p ∈ past30Series ⟨[⟨1, "A", some 9, none, none⟩],
        [⟨1, 1, 1704672000, 60, 9⟩, ⟨1, 2, 1704844800, 60, 9⟩]⟩ 1704672000 19760,
        p.1 = 19759 → p.2 = 0) := by
  have h := window_series_shape ⟨[⟨1, "A", some 9, none, none⟩],
    [⟨1, 1, 1704672000, 60, 9⟩, ⟨1, 2, 1704844800, 60, 9⟩]⟩ 1704672000 19760 0 2024
  exact ⟨h.1, by decide, h.2.1 19759 (by decide)⟩

/-! ### Sentinel exclusions (C8) -/

/-- The sentinel predicate negated by the year-in-review `WHERE` clauses:
`b.title NOT IN ('KOReader Quickstart Guide', 'Necroscope 003: Blutmesse')
and b.id != 10`. -/
def isSentinelBook (b : Book) : Bool :=
  b.title = "KOReader Quickstart Guide" || b.title = "Necroscope 003: Blutmesse"
    || b.id = 10

/-- The joined, filtered row set shared by `create_year_in_review_summary`
and `plot_books_read_per_month`: `page_stat_data JOIN book ON
psd.id_book = b.id`, restricted to the display year and to non-sentinel
books. -/
def yirJoin (tz year : Int) (db : DB) : List (PageStat × Book) :=
  db.psd.flatMap (fun r => (db.books.filter (fun b =>
    b.id = r.id_book ∧ civilYear (dateOf tz r.start_time) = year
      ∧ isSentinelBook b = false)).map (fun b => (r, b)))

/-- Aggregate `SUM(DISTINCT x)` over nullable values: NULLs ignored, each distinct
value counted once, NULL on an empty set. -/
def sumDistinct (l : List (Option Int)) : Option Int :=
  if (l.filterMap id).dedup = [] then none else some ((l.filterMap id).dedup).sum

/-- The single aggregate row fetched by `create_year_in_review_summary`:
distinct reading days, distinct completed book ids,
`SUM(DISTINCT total_read_time)/3600` (SQLite integer division) and
`SUM(DISTINCT total_read_pages)`. -/
structure YirRow where
  uniqueDays : Nat
  booksCompleted : Nat
  totalHours : Option Int
  totalPages : Option Int
deriving DecidableEq, Repr

/-- The year-in-review aggregates computed over the joined row set. -/
def yirSummaryRow (tz year : Int) (db : DB) : YirRow :=
  { uniqueDays := ((yirJoin tz year db).map (fun p => dateOf tz p.1.start_time)).dedup.length
    booksCompleted := ((yirJoin tz year db).map (fun p => p.2.id)).dedup.length
    totalHours := (sumDistinct ((yirJoin tz year db).map
      (fun p => p.2.total_read_time))).map (fun s => s.tdiv 3600)
    totalPages := sumDistinct ((yirJoin tz year db).map (fun p => p.2.total_read_pages)) }

/-- Chart `plot_books_read_per_month`: `COUNT(DISTINCT b.title)` per month,
reindexed over months 1–12 with zero fill. -/
def monthlyBooksRead (tz year : Int) (db : DB) : List Nat :=
  (List.range 12).map (fun k : Nat =>
    (((yirJoin tz year db).filter (fun p =>
      civilMonth (dateOf tz p.1.start_time) = (k : Int) + 1)).map
      (fun p => p.2.title)).dedup.length)

/-- C8: rows of `page_stat_data` whose book is in the sentinel set (id 10
or one of the two excluded titles) contribute nothing: appending any such
activity leaves the joined row set, every year-in-review aggregate
(including the books-completed count) and the books-per-month chart
unchanged, and no sentinel book ever appears in the joined row set. -/
theorem sentinel_exclusion (tz year : Int) (db : DB) (extra : List PageStat)
    (hx : ∀ r ∈ extra, ∀ b ∈ db.books, b.id = r.id_book → isSentinelBook b = true) :
    yirJoin tz year ⟨db.books, db.psd ++ extra⟩ = yirJoin tz year db
    ∧ yirSummaryRow tz year ⟨db.books, db.psd ++ extra⟩ = yirSummaryRow tz year db
    ∧ monthlyBooksRead tz year ⟨db.books, db.psd ++ extra⟩ = monthlyBooksRead tz year db
    ∧ ∀ p ∈ yirJoin tz year db, isSentinelBook p.2 = false := by
  have hjoin : yirJoin tz year ⟨db.books, db.psd ++ extra⟩ = yirJoin tz year db := by
    show (db.psd ++ extra).flatMap _ = _
    rw [List.flatMap_append]
    have hnil : extra.flatMap (fun r => (db.books.filter (fun b =>
        b.id = r.id_book ∧ civilYear (dateOf tz r.start_time) = year
          ∧ isSentinelBook b = false)).map (fun b => (r, b))) = [] := by
      rw [List.flatMap_eq_nil_iff]
      intro r hr
      rw [List.map_eq_nil, List.filter_eq_nil_iff]
      intro b hb hcond
      simp only [decide_eq_true_eq] at hcond
      have := hx r hr b hb hcond.1
      rw [this] at hcond
      exact absurd hcond.2.2 (by simp)
    rw [hnil, List.append_nil]
    rfl
  refine ⟨hjoin, ?_, ?_, ?_⟩
  · rw [yirSummaryRow, yirSummaryRow, hjoin]
  · rw [monthlyBooksRead, monthlyBooksRead, hjoin]
  · intro p hp
    rw [yirJoin] at hp
    obtain ⟨r, _, hmem⟩ := List.mem_flatMap.1 hp
    obtain ⟨b, hb, rfl⟩ := List.mem_map.1 hmem
    have := (List.mem_filter.1 hb).2
    simp only [decide_eq_true_eq] at this
    exact this.2.2

/-- Witness for C8: adding quickstart-guide activity (book id 10) changes
no year-in-review aggregate of a concrete database. -/
theorem sentinel_exclusion_witness :
    (∀ r ∈ [PageStat.mk 10 4 1704672000 60 9], ∀ b ∈ [Book.mk 2 "Real" (some 9) (some 7200)
        (some 9), Book.mk 10 "KOReader Quickstart Guide" (some 5) (some 100) (some 5)],
      b.id = r.id_book → isSentinelBook b = true)
    ∧ (yirSummaryRow 0 2024 ⟨[⟨2, "Real", some 9, some 7200, some 9⟩,
          ⟨10, "KOReader Quickstart Guide", some 5, some 100, some 5⟩],
          [⟨2, 1, 1704672000, 60, 9⟩] ++ [⟨10, 4, 1704672000, 60, 9⟩]⟩
        = yirSummaryRow 0 2024 ⟨[⟨2, "Real", some 9, some 7200, some 9⟩,
          ⟨10, "KOReader Quickstart Guide", some 5, some 100, some 5⟩],
          [⟨2, 1, 1704672000, 60, 9⟩]⟩
      ∧ monthlyBooksRead 0 2024 ⟨[⟨2, "Real", some 9, some 7200, some 9⟩,
          ⟨10, "KOReader Quickstart Guide", some 5, some 100, some 5⟩],
          [⟨2, 1, 1704672000, 60, 9⟩] ++ [⟨10, 4, 1704672000, 60, 9⟩]⟩
        = monthlyBooksRead 0 2024 ⟨[⟨2, "Real", some 9, some 7200, some 9⟩,
          ⟨10, "KOReader Quickstart Guide", some 5, some 100, some 5⟩],
          [⟨2, 1, 1704672000, 60, 9⟩]⟩) := by
  have h := sentinel_exclusion 0 2024 ⟨[⟨2, "Real", some 9, some 7200, some 9⟩,
    ⟨10, "KOReader Quickstart Guide", some 5, some 100, some 5⟩],
    [⟨2, 1, 1704672000, 60, 9⟩]⟩ [⟨10, 4, 1704672000, 60, 9⟩] (by decide)
  exact ⟨by decide, h.2.1, h.2.2.1⟩

end ReadingStats
